import Mathlib

/-!
Verification of the host-side render loop of `hello_world.py`.

The script polls two device queues (decoded RGB frames and neural-network
detection batches), keeps the most recent value of each, converts the
normalized detection coordinates to pixel coordinates with `frameNorm`,
draws rectangles with `cv2.rectangle`, displays the frame, and exits when
the key code 113 (lowercase q) is observed by `cv2.waitKey(1)`.

Floating-point coordinates are modelled by rationals; a frame is modelled by
its shape, abstract pixel data, and the list of rectangles burned into its
pixel buffer so far (drawing with `cv2.rectangle` mutates the frame in
place).
-/

/-- A rectangle drawn by `cv2.rectangle`: two corner points, a BGR color and
a line thickness. -/
structure DrawnRect where
  pt1 : ℤ × ℤ
  pt2 : ℤ × ℤ
  color : ℕ × ℕ × ℕ
  thickness : ℕ
deriving DecidableEq

/-- A decoded video frame. `height` is `frame.shape[0]`, `width` is
`frame.shape[1]`, `data` abstracts the pixel contents, and `drawn` records
the rectangles that `cv2.rectangle` has burned into the pixel buffer. -/
structure Frame where
  height : ℕ
  width : ℕ
  data : ℕ
  drawn : List DrawnRect
deriving DecidableEq

/-- One MobileNet-SSD detection: a class label, a confidence, and four
normalized coordinates, each a fraction of the frame width or height. -/
structure Detection where
  label : ℕ
  confidence : ℚ
  xmin : ℚ
  ymin : ℚ
  xmax : ℚ
  ymax : ℚ
deriving DecidableEq

/-- Truncation toward zero, the conversion numpy `astype(int)` performs. -/
def npAstypeInt (q : ℚ) : ℤ := if 0 ≤ q then ⌊q⌋ else ⌈q⌉

/-- Componentwise `np.clip(x, 0, 1)`. -/
def npClip01 (q : ℚ) : ℚ := min (max q 0) 1

/-- The `normVals` vector of `frameNorm`: filled with the frame height by
`np.full(len(bbox), frame.shape[0])`, then every even position overwritten
with the frame width by `normVals[::2] = frame.shape[1]`. -/
def normVals (n w h : ℕ) : List ℕ :=
  (List.range n).map (fun i => if i % 2 = 0 then w else h)

/-- `frameNorm(frame, bbox)` from `hello_world.py`: clip every normalized
coordinate to `[0, 1]`, multiply it by the matching entry of `normVals`, and
truncate each product to an integer with `astype(int)`. -/
def frameNorm (frame : Frame) (bbox : List ℚ) : List ℤ :=
  (bbox.zip (normVals bbox.length frame.width frame.height)).map
    (fun p => npAstypeInt (npClip01 p.1 * (p.2 : ℚ)))

/-- The componentwise action of `frameNorm`: one normalized coordinate
clipped to `[0, 1]`, scaled by one frame dimension, truncated to an
integer. -/
def denormalize (c : ℚ) (d : ℕ) : ℤ := npAstypeInt (npClip01 c * (d : ℚ))

/-- `cv2.rectangle(img, pt1, pt2, color, thickness)`: mutate the image by
drawing one unfilled rectangle. -/
def cv2Rectangle (img : Frame) (pt1 pt2 : ℤ × ℤ) (color : ℕ × ℕ × ℕ)
    (thickness : ℕ) : Frame :=
  { img with drawn := img.drawn ++ [⟨pt1, pt2, color, thickness⟩] }

/-- The body of the `for detection in detections` loop: compute `bbox` with
`frameNorm` and draw the rectangle in color `(255, 0, 0)` with thickness
2. -/
def drawDetection (img : Frame) (d : Detection) : Frame :=
  let bbox := frameNorm img [d.xmin, d.ymin, d.xmax, d.ymax]
  cv2Rectangle img (bbox.getD 0 0, bbox.getD 1 0) (bbox.getD 2 0, bbox.getD 3 0)
    (255, 0, 0) 2

/-- The render sub-step: draw every detection of the held batch onto the
frame, in order. -/
def render (img : Frame) (ds : List Detection) : Frame :=
  ds.foldl drawDetection img

/-- The rectangle that drawing detection `d` on a frame with the dimensions
of `f` produces. -/
def rectOf (f : Frame) (d : Detection) : DrawnRect :=
  ⟨(denormalize d.xmin f.width, denormalize d.ymin f.height),
   (denormalize d.xmax f.width, denormalize d.ymax f.height), (255, 0, 0), 2⟩

/-- The host-side loop state: the held frame and the held detection
batch. -/
structure LoopState where
  frame : Option Frame
  detections : List Detection
deriving DecidableEq

/-- The state before the first iteration: `frame = None`,
`detections = []`. -/
def initState : LoopState := ⟨none, []⟩

/-- The external inputs of one iteration: the result of `q_rgb.tryGet()`
(already decoded by `getCvFrame`), the result of `q_nn.tryGet()` (already
projected to its `detections` field), and the key code returned by
`cv2.waitKey(1)`, which is `-1` when no key is pressed. -/
structure StepInput where
  inRgb : Option Frame
  inNn : Option (List Detection)
  key : ℤ
deriving DecidableEq

/-- The observable effects of one iteration: the image passed to
`cv2.imshow`, if any, and whether the quit check fired. -/
structure StepOutput where
  rendered : Option Frame
  quit : Bool
deriving DecidableEq

/-- The poll-and-replace half of one iteration: a present packet replaces
the held value, an absent one leaves it unchanged. -/
def pollUpdate (s : LoopState) (inp : StepInput) : LoopState :=
  { frame := match inp.inRgb with
      | some f => some f
      | none => s.frame,
    detections := match inp.inNn with
      | some ds => ds
      | none => s.detections }

/-- One full iteration of the `while True` loop: poll both queues and
replace the held values, render if a frame is held (drawing mutates the held
frame, which is then shown), and evaluate the quit check
`cv2.waitKey(1) == ord(q)`, where the code of lowercase q is 113. -/
def step (s : LoopState) (inp : StepInput) : LoopState × StepOutput :=
  let s1 := pollUpdate s inp
  match s1.frame with
  | some f =>
      let f2 := render f s1.detections
      (⟨some f2, s1.detections⟩, ⟨some f2, decide (inp.key = 113)⟩)
  | none => (s1, ⟨none, decide (inp.key = 113)⟩)

/-- Run the loop on a finite prefix of the input streams, stopping after the
first iteration whose quit check fires (the `break`). -/
def run (s : LoopState) : List StepInput → List StepOutput
  | [] => []
  | inp :: rest =>
    let p := step s inp
    if p.2.quit then [p.2] else p.2 :: run p.1 rest

/-- The 300 by 300 preview frame configured by `setPreviewSize(300, 300)`,
with fresh pixel data. -/
def frame300 : Frame := ⟨300, 300, 0, []⟩

/-- A second fresh frame, used to exercise frame replacement. -/
def frameB : Frame := ⟨300, 300, 1, []⟩

/-- A sample detection with normalized box (0.1, 0.2, 0.5, 0.6). -/
def det0 : Detection := ⟨15, 9/10, 1/10, 2/10, 5/10, 6/10⟩

/-- A sample iteration input carrying both a frame and a detection batch. -/
def inpBoth : StepInput := ⟨some frame300, some [det0], -1⟩

lemma npClip01_eq_self {c : ℚ} (h0 : 0 ≤ c) (h1 : c ≤ 1) : npClip01 c = c := by
  rw [npClip01, max_eq_left h0, min_eq_left h1]

lemma npClip01_nonneg (c : ℚ) : 0 ≤ npClip01 c :=
  le_min (le_max_right c 0) zero_le_one

lemma npClip01_le_one (c : ℚ) : npClip01 c ≤ 1 := min_le_right _ _

lemma npClip01_mono {c c' : ℚ} (h : c ≤ c') : npClip01 c ≤ npClip01 c' :=
  min_le_min (max_le_max h le_rfl) le_rfl

lemma npAstypeInt_of_nonneg {q : ℚ} (h : 0 ≤ q) : npAstypeInt q = ⌊q⌋ :=
  if_pos h

lemma denormalize_eq_floor (c : ℚ) (d : ℕ) :
    denormalize c d = ⌊npClip01 c * (d : ℚ)⌋ :=
  npAstypeInt_of_nonneg (mul_nonneg (npClip01_nonneg c) (by positivity))

lemma denormalize_nonneg (c : ℚ) (d : ℕ) : 0 ≤ denormalize c d := by
  rw [denormalize_eq_floor]
  exact Int.floor_nonneg.mpr (mul_nonneg (npClip01_nonneg c) (by positivity))

lemma denormalize_le (c : ℚ) (d : ℕ) : denormalize c d ≤ (d : ℤ) := by
  rw [denormalize_eq_floor]
  have h : npClip01 c * (d : ℚ) ≤ (d : ℚ) :=
    mul_le_of_le_one_left (by positivity) (npClip01_le_one c)
  calc ⌊npClip01 c * (d : ℚ)⌋ ≤ ⌊(d : ℚ)⌋ := Int.floor_le_floor h
    _ = (d : ℤ) := Int.floor_natCast d

lemma denormalize_mono {c c' : ℚ} (d : ℕ) (h : c ≤ c') :
    denormalize c d ≤ denormalize c' d := by
  rw [denormalize_eq_floor, denormalize_eq_floor]
  exact Int.floor_le_floor
    (mul_le_mul_of_nonneg_right (npClip01_mono h) (by positivity))

lemma frameNorm_quad (f : Frame) (a b a' b' : ℚ) :
    frameNorm f [a, b, a', b'] =
      [denormalize a f.width, denormalize b f.height,
       denormalize a' f.width, denormalize b' f.height] := by
  show List.map _ (List.zip _ (normVals 4 f.width f.height)) = _
  have h4 : normVals 4 f.width f.height = [f.width, f.height, f.width, f.height] := by
    simp [normVals, List.range_succ]
  rw [h4]
  rfl

lemma drawDetection_width (img : Frame) (d : Detection) :
    (drawDetection img d).width = img.width := rfl

lemma drawDetection_height (img : Frame) (d : Detection) :
    (drawDetection img d).height = img.height := rfl

lemma rectOf_congr {f g : Frame} (hw : f.width = g.width)
    (hh : f.height = g.height) (d : Detection) : rectOf f d = rectOf g d := by
  rw [rectOf, rectOf, hw, hh]

lemma drawDetection_drawn (img : Frame) (d : Detection) :
    (drawDetection img d).drawn = img.drawn ++ [rectOf img d] := by
  show (cv2Rectangle img _ _ _ _).drawn = _
  rw [cv2Rectangle]
  rw [frameNorm_quad]
  rfl

lemma render_cons (img : Frame) (d : Detection) (ds : List Detection) :
    render img (d :: ds) = render (drawDetection img d) ds := rfl

lemma render_drawn (ds : List Detection) (img : Frame) :
    (render img ds).drawn = img.drawn ++ ds.map (rectOf img) := by
  induction ds generalizing img with
  | nil => simp [render]
  | cons d ds ih =>
      have h1 : (render img (d :: ds)).drawn
          = (drawDetection img d).drawn ++ ds.map (rectOf (drawDetection img d)) := by
        rw [render_cons]
        exact ih (drawDetection img d)
      have h2 : rectOf (drawDetection img d) = rectOf img :=
        funext fun d' => rectOf_congr rfl rfl d'
      rw [h1, h2, drawDetection_drawn, List.map_cons, List.append_assoc,
        List.singleton_append]

lemma step_detections (s : LoopState) (inp : StepInput) :
    (step s inp).1.detections = (pollUpdate s inp).detections := by
  rw [step]
  cases h : (pollUpdate s inp).frame <;> simp [h]

lemma step_quit (s : LoopState) (inp : StepInput) :
    (step s inp).2.quit = decide (inp.key = 113) := by
  rw [step]
  cases h : (pollUpdate s inp).frame <;> simp [h]

/-- C1: for every coordinate `c` in `[0, 1]` and every positive frame
dimension `d`, the componentwise denormalization (clip, scale, truncate)
returns exactly `⌊c * d⌋`, and the result lies between `0` and `d`. -/
theorem denormalize_in_range (c : ℚ) (d : ℕ) (h0 : 0 ≤ c) (h1 : c ≤ 1)
    (hd : 0 < d) :
    denormalize c d = ⌊c * (d : ℚ)⌋ ∧ 0 ≤ denormalize c d ∧
      denormalize c d ≤ (d : ℤ) := by
  refine ⟨?_, denormalize_nonneg c d, denormalize_le c d⟩
  rw [denormalize_eq_floor, npClip01_eq_self h0 h1]

/-- Witness for C1 at `c = 1/2`, `d = 300`. -/
theorem denormalize_in_range_witness :
    denormalize (1/2) 300 = ⌊(1/2 : ℚ) * ((300 : ℕ) : ℚ)⌋ ∧
      0 ≤ denormalize (1/2) 300 ∧ denormalize (1/2) 300 ≤ ((300 : ℕ) : ℤ) :=
  denormalize_in_range (1/2) 300 (by norm_num) (by norm_num) (by norm_num)

/-- C2: on a coordinate quadruple, `frameNorm` scales the two x-coordinates
(positions 0 and 2) by the frame width and the two y-coordinates (positions
1 and 3) by the frame height, each through `denormalize`, which clamps the
input to `[0, 1]` before scaling and truncates the product. -/
theorem frameNorm_componentwise (f : Frame) (xmin ymin xmax ymax : ℚ) :
    frameNorm f [xmin, ymin, xmax, ymax] =
      [denormalize xmin f.width, denormalize ymin f.height,
       denormalize xmax f.width, denormalize ymax f.height] :=
  frameNorm_quad f xmin ymin xmax ymax

/-- C3: `denormalize` clamps out-of-range input: `-0.5` is treated as `0`
and `1.5` is treated as `1` before scaling, so they map to pixel `0` and
pixel `d` respectively. -/
theorem denormalize_clamps (d : ℕ) :
    denormalize (-(1/2)) d = denormalize 0 d ∧
      denormalize (3/2) d = denormalize 1 d ∧
      denormalize (-(1/2)) d = 0 ∧ denormalize (3/2) d = (d : ℤ) := by
  have hlo : npClip01 (-(1/2) : ℚ) = 0 := by norm_num [npClip01]
  have hhi : npClip01 ((3/2) : ℚ) = 1 := by norm_num [npClip01]
  have h0 : npClip01 (0 : ℚ) = 0 := by norm_num [npClip01]
  have h1 : npClip01 (1 : ℚ) = 1 := by norm_num [npClip01]
  have e1 : denormalize (-(1/2)) d = 0 := by rw [denormalize_eq_floor, hlo]; simp
  have e2 : denormalize (3/2) d = (d : ℤ) := by rw [denormalize_eq_floor, hhi]; simp
  have e3 : denormalize 0 d = 0 := by rw [denormalize_eq_floor, h0]; simp
  have e4 : denormalize 1 d = (d : ℤ) := by rw [denormalize_eq_floor, h1]; simp
  exact ⟨by rw [e1, e3], by rw [e2, e4], e1, e2⟩

/-- C4: every iteration follows latest-value semantics. A newly polled frame
fully replaces the held frame and a newly polled batch fully replaces the
held batch; an empty frame poll leaves the held frame, an empty detection
poll leaves the held batch, and the previously held batch is then drawn
unchanged on the next available frame. -/
theorem step_latest_value (s : LoopState) (inp : StepInput) :
    (∀ f, inp.inRgb = some f → (pollUpdate s inp).frame = some f) ∧
    (inp.inRgb = none → (pollUpdate s inp).frame = s.frame) ∧
    (∀ ds, inp.inNn = some ds → (step s inp).1.detections = ds) ∧
    (inp.inNn = none → (step s inp).1.detections = s.detections ∧
      ∀ f, inp.inRgb = some f →
        (step s inp).2.rendered = some (render f s.detections)) := by
  refine ⟨?_, ?_, ?_, ?_⟩
  · intro f hf
    simp [pollUpdate, hf]
  · intro hf
    simp [pollUpdate, hf]
  · intro ds hds
    rw [step_detections]
    simp [pollUpdate, hds]
  · intro hn
    refine ⟨by rw [step_detections]; simp [pollUpdate, hn], ?_⟩
    intro f hf
    simp [step, pollUpdate, hn, hf]

/-- Witness for C4: a held batch survives an empty detection poll and is
drawn on the newly polled frame. -/
theorem step_latest_value_witness :
    (step ⟨some frame300, [det0]⟩ ⟨some frameB, none, -1⟩).2.rendered =
      some (render frameB [det0]) :=
  ((step_latest_value ⟨some frame300, [det0]⟩ ⟨some frameB, none, -1⟩).2.2.2
    rfl).2 frameB rfl

/-- C5: whenever a frame is held after the polls, the render sub-step runs:
the held frame with every detection of the held batch drawn on it is
displayed, each detection as an unfilled rectangle with the fixed color
`(255, 0, 0)` and fixed thickness `2` at its denormalized corners. -/
theorem step_renders_held_frame (s : LoopState) (inp : StepInput) (f : Frame)
    (hf : (pollUpdate s inp).frame = some f) :
    (step s inp).2.rendered = some (render f (pollUpdate s inp).detections) ∧
    (render f (pollUpdate s inp).detections).drawn =
      f.drawn ++ (pollUpdate s inp).detections.map (fun d =>
        DrawnRect.mk (denormalize d.xmin f.width, denormalize d.ymin f.height)
          (denormalize d.xmax f.width, denormalize d.ymax f.height)
          (255, 0, 0) 2) := by
  constructor
  · simp [step, hf]
  · rw [render_drawn]
    rfl

/-- Witness for C5 on the initial state with a frame and a one-detection
batch polled in the same iteration. -/
theorem step_renders_held_frame_witness :
    (step initState inpBoth).2.rendered =
      some (render frame300 (pollUpdate initState inpBoth).detections) ∧
    (render frame300 (pollUpdate initState inpBoth).detections).drawn =
      frame300.drawn ++ (pollUpdate initState inpBoth).detections.map (fun d =>
        DrawnRect.mk
          (denormalize d.xmin frame300.width, denormalize d.ymin frame300.height)
          (denormalize d.xmax frame300.width, denormalize d.ymax frame300.height)
          (255, 0, 0) 2) :=
  step_renders_held_frame initState inpBoth frame300 rfl

/-- C6: when the frame poll returns none and no frame is held, the iteration
displays nothing and leaves the state frameless; the step is a total
function, so the empty state does not crash it. -/
theorem step_no_frame_no_render (s : LoopState) (inp : StepInput)
    (hr : inp.inRgb = none) (hs : s.frame = none) :
    (step s inp).2.rendered = none ∧ (step s inp).1.frame = none := by
  have h : (pollUpdate s inp).frame = none := by simp [pollUpdate, hr, hs]
  constructor <;> simp [step, h]

/-- Witness for C6 on the initial state with both polls empty. -/
theorem step_no_frame_no_render_witness :
    (step initState ⟨none, none, -1⟩).2.rendered = none ∧
      (step initState ⟨none, none, -1⟩).1.frame = none :=
  step_no_frame_no_render initState ⟨none, none, -1⟩ rfl rfl

lemma denormalize_int (c : ℚ) (d : ℕ) (z : ℤ) (h0 : 0 ≤ c) (h1 : c ≤ 1)
    (h : c * (d : ℚ) = (z : ℚ)) : denormalize c d = z := by
  rw [denormalize_eq_floor, npClip01_eq_self h0 h1, h, Int.floor_intCast]

/-- C7: on the 300 by 300 preview frame, the detection with normalized box
(0.1, 0.2, 0.5, 0.6) is drawn as the rectangle from (30, 60) to
(150, 180). -/
theorem rectangle_corners_300 :
    (render frame300 [det0]).drawn =
      [DrawnRect.mk (30, 60) (150, 180) (255, 0, 0) 2] := by
  have e1 : denormalize det0.xmin frame300.width = 30 :=
    denormalize_int _ _ 30 (by norm_num [det0]) (by norm_num [det0])
      (by norm_num [det0, frame300])
  have e2 : denormalize det0.ymin frame300.height = 60 :=
    denormalize_int _ _ 60 (by norm_num [det0]) (by norm_num [det0])
      (by norm_num [det0, frame300])
  have e3 : denormalize det0.xmax frame300.width = 150 :=
    denormalize_int _ _ 150 (by norm_num [det0]) (by norm_num [det0])
      (by norm_num [det0, frame300])
  have e4 : denormalize det0.ymax frame300.height = 180 :=
    denormalize_int _ _ 180 (by norm_num [det0]) (by norm_num [det0])
      (by norm_num [det0, frame300])
  have hrect : rectOf frame300 det0 = DrawnRect.mk (30, 60) (150, 180) (255, 0, 0) 2 := by
    rw [rectOf, e1, e2, e3, e4]
  rw [render_drawn, List.map_cons, List.map_nil, hrect]
  rfl

/-- C8: the quit check fires exactly on key code 113 (lowercase q); an
iteration that observes it is the last one, with no further outputs, while
any other key code lets the loop continue. -/
theorem quit_exits_loop (s : LoopState) (inp : StepInput)
    (rest : List StepInput) :
    ((step s inp).2.quit = true ↔ inp.key = 113) ∧
    (inp.key = 113 → run s (inp :: rest) = [(step s inp).2]) ∧
    (inp.key ≠ 113 → run s (inp :: rest) =
      (step s inp).2 :: run (step s inp).1 rest) := by
  have hq := step_quit s inp
  refine ⟨?_, ?_, ?_⟩
  · rw [hq]
    simp
  · intro hk
    have hqt : (step s inp).2.quit = true := by simp [hq, hk]
    simp [run, hqt]
  · intro hk
    have hqf : (step s inp).2.quit = false := by simp [hq, hk]
    simp [run, hqf]

/-- Witness for C8: pressing q on the very first iteration yields a
one-iteration trace. -/
theorem quit_exits_loop_witness :
    run initState [StepInput.mk none none 113] =
      [(step initState (StepInput.mk none none 113)).2] :=
  (quit_exits_loop initState (StepInput.mk none none 113) []).2.1 rfl

/-- C9: the loop starts with no held frame and an empty held batch, so
nothing is displayed before the first frame arrives, and a frame that
arrives before any detection batch is displayed with zero rectangles drawn
on it. -/
theorem initial_state_empty :
    initState.frame = none ∧ initState.detections = [] ∧
    (∀ inp : StepInput, inp.inRgb = none →
      (step initState inp).2.rendered = none) ∧
    (∀ (f : Frame) (inp : StepInput), inp.inRgb = some f → inp.inNn = none →
      (step initState inp).2.rendered = some (render f []) ∧
        render f [] = f) := by
  refine ⟨rfl, rfl, ?_, ?_⟩
  · intro inp h
    have hpf : (pollUpdate initState inp).frame = none := by
      simp [pollUpdate, h, initState]
    simp [step, hpf]
  · intro f inp hf hn
    have hpf : (pollUpdate initState inp).frame = some f := by
      simp [pollUpdate, hf]
    have hpd : (pollUpdate initState inp).detections = [] := by
      simp [pollUpdate, hn, initState]
    exact ⟨by simp [step, hpf, hpd], rfl⟩

/-- Witness for C9: a first frame with no detections yet is displayed
unmodified. -/
theorem initial_state_empty_witness :
    (step initState (StepInput.mk (some frame300) none (-1))).2.rendered =
      some (render frame300 []) ∧ render frame300 [] = frame300 :=
  initial_state_empty.2.2.2 frame300 (StepInput.mk (some frame300) none (-1))
    rfl rfl

/-- C10: the pixel mapping is monotone in each coordinate, so an input box
with ordered corners keeps them ordered in pixels: positions 0 and 2 of the
output respect the x order, positions 1 and 3 respect the y order. -/
theorem frameNorm_ordered_corners (f : Frame) (xmin ymin xmax ymax : ℚ) :
    (xmin ≤ xmax →
      (frameNorm f [xmin, ymin, xmax, ymax]).getD 0 0 ≤
        (frameNorm f [xmin, ymin, xmax, ymax]).getD 2 0) ∧
    (ymin ≤ ymax →
      (frameNorm f [xmin, ymin, xmax, ymax]).getD 1 0 ≤
        (frameNorm f [xmin, ymin, xmax, ymax]).getD 3 0) := by
  rw [frameNorm_quad]
  constructor <;> intro h <;> simpa using denormalize_mono _ h

/-- Witness for C10 at the sample box (0.1, 0.2, 0.5, 0.6). -/
theorem frameNorm_ordered_corners_witness :
    (frameNorm frame300 [1/10, 2/10, 5/10, 6/10]).getD 0 0 ≤
      (frameNorm frame300 [1/10, 2/10, 5/10, 6/10]).getD 2 0 :=
  (frameNorm_ordered_corners frame300 (1/10) (2/10) (5/10) (6/10)).1
    (by norm_num)
